import Mathlib

/-!
Verification development for the bike-sharing usage-analysis repository.

The embedding below translates the data pipeline of the repository into Lean:

* `src/src/data_loader.py` — `BikeDataLoader.load_and_clean`: existence check,
  column rename, date parsing, denormalization, `day_type` labelling;
* `src/thesis_analysis.py` — `BikeDataPipeline.process_data` (the duplicated
  pipeline variant, with its eight-entry rename map and no date parsing),
  `run_temporal_analysis` (SQL GROUP BY hour, day_type with AVG),
  `run_weather_impact_study` (pandas groupby on weather_code), and
  `run_spatial_analysis` (top start stations, LIMIT 5);
* `src/src/analysis.py` — `BikeAnalyzer.plot_temporal_trends` and
  `plot_user_segmentation` run the same two aggregations.

Tabular cells are modelled as `Option ℚ` — `none` models a missing value
(pandas NaN / SQL NULL).  A file system is a partial map from paths to parsed
tables; CSV decoding itself is outside the scope of the claims.
-/

namespace BikeShare

/-- One row of the hourly CSV in the UCI bike-sharing schema, restricted to the
columns the pipeline reads.  Remaining UCI columns (instant, season, holiday,
weekday) are carried through the pipeline untouched and are not modelled.
Numeric cells are `Option ℚ`: `none` models a missing/NaN cell. -/
structure RawRow where
  dteday : String
  yr : Option ℚ
  mnth : Option ℚ
  hr : Option ℚ
  weathersit : Option ℚ
  cnt : Option ℚ
  hum : Option ℚ
  atemp : Option ℚ
  workingday : Option ℚ
  temp : Option ℚ
  windspeed : Option ℚ
  casual : Option ℚ
  registered : Option ℚ
deriving DecidableEq

/-- A row of the cleaned table produced by `BikeDataLoader.load_and_clean`
(`src/src/data_loader.py`): renamed columns, parsed `date`, the retained
source columns `temp`, `windspeed`, `casual`, `registered`, and the derived
columns `temp_c`, `humidity_real`, `wind_speed_real`, `day_type`. -/
structure CleanRow where
  date : Nat × Nat × Nat
  year : Option ℚ
  month : Option ℚ
  hour : Option ℚ
  weather_code : Option ℚ
  total_rentals : Option ℚ
  humidity_norm : Option ℚ
  feel_temp_norm : Option ℚ
  is_working_day : Option ℚ
  temp : Option ℚ
  windspeed : Option ℚ
  casual : Option ℚ
  registered : Option ℚ
  temp_c : Option ℚ
  humidity_real : Option ℚ
  wind_speed_real : Option ℚ
  day_type : String
deriving DecidableEq

/-- The nine-entry rename dictionary of `BikeDataLoader.load_and_clean`
(`src/src/data_loader.py`, lines 22-27). -/
def rename_map : List (String × String) :=
  [("dteday", "date"), ("yr", "year"), ("mnth", "month"), ("hr", "hour"),
   ("weathersit", "weather_code"), ("cnt", "total_rentals"),
   ("hum", "humidity_norm"), ("atemp", "feel_temp_norm"),
   ("workingday", "is_working_day")]

/-- The eight-entry rename dictionary of `BikeDataPipeline.process_data`
(`src/thesis_analysis.py`, lines 44-48); it has no entry for `workingday`. -/
def column_map : List (String × String) :=
  [("dteday", "date"), ("yr", "year"), ("mnth", "month"), ("hr", "hour"),
   ("weathersit", "weather_code"), ("cnt", "total_rentals"),
   ("hum", "humidity_norm"), ("atemp", "feel_temp_norm")]

/-- Semantics of `DataFrame.rename(columns=m)` on a single column label: a
label that is a key of the dictionary is replaced by its value, every other
label is kept unchanged. -/
def renameColumn (m : List (String × String)) (c : String) : String :=
  match m.find? (fun p => p.1 == c) with
  | some p => p.2
  | none => c

/-- The `day_type` labelling lambda (`src/src/data_loader.py`, lines 40-42 and
`src/thesis_analysis.py`, lines 59-61): `'Working Day' if x == 1 else
'Weekend/Holiday'`.  A missing cell (NaN) compares unequal to 1 in Python, so
it is labelled `Weekend/Holiday` as well. -/
def dayTypeOf : Option ℚ → String
  | some x => if x = 1 then "Working Day" else "Weekend/Holiday"
  | none => "Weekend/Holiday"

/-- The per-row transformation performed by `load_and_clean` after the date
column has been parsed to `d`: rename, retain the source columns, add the
denormalized columns and the `day_type` label. -/
def toCleanRow (r : RawRow) (d : Nat × Nat × Nat) : CleanRow :=
  { date := d
    year := r.yr
    month := r.mnth
    hour := r.hr
    weather_code := r.weathersit
    total_rentals := r.cnt
    humidity_norm := r.hum
    feel_temp_norm := r.atemp
    is_working_day := r.workingday
    temp := r.temp
    windspeed := r.windspeed
    casual := r.casual
    registered := r.registered
    temp_c := r.temp.map (fun x => x * 41)
    humidity_real := r.hum.map (fun x => x * 100)
    wind_speed_real := r.windspeed.map (fun x => x * 67)
    day_type := dayTypeOf r.workingday }

/-- Splits a character list at every occurrence of `sep` (used to parse the
`dteday` field, which the UCI dataset stores as `YYYY-MM-DD`). -/
def splitOnChar (sep : Char) : List Char → List (List Char)
  | [] => [[]]
  | c :: cs =>
    let rest := splitOnChar sep cs
    if c = sep then [] :: rest
    else
      match rest with
      | [] => [[c]]
      | g :: gs => (c :: g) :: gs

/-- Reads a nonempty all-digit character list as a natural number. -/
def natOfDigits (cs : List Char) : Option Nat :=
  if cs.isEmpty then none
  else if cs.all Char.isDigit then
    some (cs.foldl (fun n c => 10 * n + (c.toNat - 48)) 0)
  else none

/-- Calendar-date parsing of the `dteday` string, modelling the
`pd.to_datetime` call of `load_and_clean` on the dataset's `YYYY-MM-DD`
format; any failure is fatal to the whole load. -/
def parseDate (s : String) : Option (Nat × Nat × Nat) :=
  match (splitOnChar '-' s.data).map natOfDigits with
  | [some y, some m, some d] =>
    if 1 ≤ m ∧ m ≤ 12 ∧ 1 ≤ d ∧ d ≤ 31 then some (y, m, d) else none
  | _ => none

/-- Cleans every row in order; fails when any `dteday` cell fails to parse
(`pd.to_datetime` raises on the whole column). -/
def cleanRows : List RawRow → Option (List CleanRow)
  | [] => some []
  | r :: rs =>
    match parseDate r.dteday, cleanRows rs with
    | some d, some cs => some (toCleanRow r d :: cs)
    | _, _ => none

/-- Error channel of the loader: `fileNotFound` models the explicit
`FileNotFoundError` raise, `dateParseFailure` the fatal `pd.to_datetime`
failure. -/
inductive LoadError where
  | fileNotFound
  | dateParseFailure
deriving DecidableEq

/-- A file system holding hourly tables: maps each path to the parsed table
of an existing readable file, or to `none` when the path does not resolve to
an existing file (`os.path.exists` is false). -/
def HourlyFS : Type := String → Option (List RawRow)

/-- The `BikeDataLoader.load_and_clean` method (`src/src/data_loader.py`,
lines 13-44): raises `FileNotFoundError` when the hourly path does not exist,
otherwise reads the table, renames columns, parses dates, derives the
denormalized columns and the `day_type` label, and returns the cleaned
rows. -/
def load_and_clean (fs : HourlyFS) (hourly_path : String) :
    Except LoadError (List CleanRow) :=
  match fs hourly_path with
  | none => Except.error LoadError.fileNotFound
  | some raws =>
    match cleanRows raws with
    | none => Except.error LoadError.dateParseFailure
    | some rows => Except.ok rows

/-- Image files written by a run outcome: an aborted run (an error escaping
to the top level before any `savefig` call) writes nothing. -/
def writesOf {ε : Type} : Except ε (List String) → List String
  | Except.error _ => []
  | Except.ok l => l

/-- The `main.py` run: create the output directory, `load_and_clean`, then
render the two charts; an exception from the loader propagates and no
`savefig` call is reached, so no image file is written. -/
def mainRun (fs : HourlyFS) (hourly_path : String) :
    Except LoadError (List String) :=
  match load_and_clean fs hourly_path with
  | Except.error e => Except.error e
  | Except.ok _ => Except.ok ["output/temporal_analysis.png", "output/user_analysis.png"]

/-- A row of the table produced by the duplicated pipeline
(`BikeDataPipeline.process_data`): its rename dictionary has no entry for
`workingday`, so that column keeps its source name, and no date parsing is
performed (`date` stays a string). -/
structure ThesisRow where
  date : String
  year : Option ℚ
  month : Option ℚ
  hour : Option ℚ
  weather_code : Option ℚ
  total_rentals : Option ℚ
  humidity_norm : Option ℚ
  feel_temp_norm : Option ℚ
  workingday : Option ℚ
  temp : Option ℚ
  windspeed : Option ℚ
  casual : Option ℚ
  registered : Option ℚ
  temp_c : Option ℚ
  humidity_real : Option ℚ
  wind_speed_real : Option ℚ
  day_type : String
deriving DecidableEq

/-- The per-row transformation of `BikeDataPipeline.process_data`
(`src/thesis_analysis.py`, lines 40-61): eight-entry rename, denormalization,
`day_type` from the (unrenamed) `workingday` column. -/
def thesisClean (r : RawRow) : ThesisRow :=
  { date := r.dteday
    year := r.yr
    month := r.mnth
    hour := r.hr
    weather_code := r.weathersit
    total_rentals := r.cnt
    humidity_norm := r.hum
    feel_temp_norm := r.atemp
    workingday := r.workingday
    temp := r.temp
    windspeed := r.windspeed
    casual := r.casual
    registered := r.registered
    temp_c := r.temp.map (fun x => x * 41)
    humidity_real := r.hum.map (fun x => x * 100)
    wind_speed_real := r.windspeed.map (fun x => x * 67)
    day_type := dayTypeOf r.workingday }

/-- The `BikeDataPipeline.process_data` method (`src/thesis_analysis.py`,
lines 33-65).  When the hourly path does not exist it prints a critical
message and returns early — `self.df` stays `None` and no exception is
raised — which is modelled as `Except.ok none`.  Otherwise it loads and
transforms the table. -/
def process_data (fs : HourlyFS) (hourly_path : String) :
    Except LoadError (Option (List ThesisRow)) :=
  match fs hourly_path with
  | none => Except.ok none
  | some raws => Except.ok (some (raws.map thesisClean))

/-- NULL-first order on nullable hour values, matching SQLite `ORDER BY`:
NULL sorts before every value, values sort numerically. -/
def hourLe : Option ℚ → Option ℚ → Prop
  | none, _ => True
  | some _, none => False
  | some x, some y => x ≤ y

instance : DecidableRel hourLe := fun a b =>
  match a, b with
  | none, _ => isTrue trivial
  | some _, none => isFalse (fun h => h)
  | some x, some y => inferInstanceAs (Decidable (x ≤ y))

/-- The `ORDER BY day_type, hour` order of the temporal query: day_type
ascending in the string order, then hour ascending (NULL first, per
SQLite). -/
def tkeyLe (a b : Option ℚ × String) : Prop :=
  a.2 < b.2 ∨ (a.2 = b.2 ∧ hourLe a.1 b.1)

instance : DecidableRel tkeyLe := fun a b =>
  inferInstanceAs (Decidable (a.2 < b.2 ∨ (a.2 = b.2 ∧ hourLe a.1 b.1)))

instance : IsTotal (Option ℚ × String) tkeyLe where
  total a b := by
    rcases lt_trichotomy a.2 b.2 with h | h | h
    · exact Or.inl (Or.inl h)
    · rcases a with ⟨a1, a2⟩
      rcases b with ⟨b1, b2⟩
      simp only at h
      subst h
      cases a1 with
      | none => exact Or.inl (Or.inr ⟨rfl, trivial⟩)
      | some x =>
        cases b1 with
        | none => exact Or.inr (Or.inr ⟨rfl, trivial⟩)
        | some y =>
          rcases le_total x y with hxy | hxy
          · exact Or.inl (Or.inr ⟨rfl, hxy⟩)
          · exact Or.inr (Or.inr ⟨rfl, hxy⟩)
    · exact Or.inr (Or.inl h)

instance : IsTrans (Option ℚ × String) tkeyLe where
  trans a b c hab hbc := by
    rcases hab with hab | ⟨hab2, hab1⟩
    · rcases hbc with hbc | ⟨hbc2, _⟩
      · exact Or.inl (lt_trans hab hbc)
      · exact Or.inl (hbc2 ▸ hab)
    · rcases hbc with hbc | ⟨hbc2, hbc1⟩
      · exact Or.inl (hab2 ▸ hbc)
      · refine Or.inr ⟨hab2.trans hbc2, ?_⟩
        obtain ⟨a1, a2⟩ := a
        obtain ⟨b1, b2⟩ := b
        obtain ⟨c1, c2⟩ := c
        cases a1 with
        | none => exact trivial
        | some x =>
          cases b1 with
          | none => exact (hab1 : False).elim
          | some y =>
            cases c1 with
            | none => exact (hbc1 : False).elim
            | some z => exact le_trans (hab1 : x ≤ y) (hbc1 : y ≤ z)

/-- Grouping key of the temporal query: `(hour, day_type)`. -/
def tkey (r : CleanRow) : Option ℚ × String := (r.hour, r.day_type)

/-- The rows of one temporal group (`GROUP BY hour, day_type`; SQL groups
NULL keys together as one group). -/
def tgroup (rows : List CleanRow) (k : Option ℚ × String) : List CleanRow :=
  rows.filter (fun r => decide (tkey r = k))

/-- SQL `AVG` / pandas `mean` over a nullable column: missing cells
contribute to neither the sum nor the count; a group with no non-missing
cell averages to NULL. -/
def avgOpt (vs : List (Option ℚ)) : Option ℚ :=
  let ws := vs.filterMap id
  if ws = [] then none else some (ws.sum / (ws.length : ℚ))

/-- One output row of the temporal query: hour, day_type and the average
rental volume of the group. -/
structure TemporalRow where
  hour : Option ℚ
  day_type : String
  average_volume : Option ℚ
deriving DecidableEq

/-- The temporal aggregation query run by both pipeline variants
(`src/src/analysis.py`, lines 63-68 and `src/thesis_analysis.py`, lines
72-81): `SELECT hour, day_type, AVG(total_rentals) FROM rentals GROUP BY
hour, day_type ORDER BY day_type, hour`. -/
def temporalAggregate (rows : List CleanRow) : List TemporalRow :=
  (List.insertionSort tkeyLe ((rows.map tkey).dedup)).map fun k =>
    { hour := k.1
      day_type := k.2
      average_volume := avgOpt ((tgroup rows k).map CleanRow.total_rentals) }

/-- The rows of one weather group: pandas `groupby('weather_code')` keys
groups by actual values only, so a row with a missing code belongs to no
group. -/
def wgroup (rows : List CleanRow) (w : ℚ) : List CleanRow :=
  rows.filter (fun r => decide (r.weather_code = some w))

/-- One output row of the weather aggregation: weather code and the two
independent averages. -/
structure WeatherRow where
  weather_code : ℚ
  average_casual : Option ℚ
  average_registered : Option ℚ
deriving DecidableEq

/-- The weather aggregation of both pipeline variants (`src/src/analysis.py`,
line 82 and `src/thesis_analysis.py`, line 100):
`df.groupby('weather_code')[['casual', 'registered']].mean()`.  Pandas drops
rows whose grouping key is NaN, sorts the group keys ascending, and averages
each column independently, skipping NaN cells. -/
def weatherAggregate (rows : List CleanRow) : List WeatherRow :=
  (List.insertionSort (fun a b : ℚ => a ≤ b)
      ((rows.filterMap CleanRow.weather_code).dedup)).map fun w =>
    { weather_code := w
      average_casual := avgOpt ((wgroup rows w).map CleanRow.casual)
      average_registered := avgOpt ((wgroup rows w).map CleanRow.registered) }

/-- Error raised by the weather-chart step of the duplicated pipeline.  Line
102 of `src/thesis_analysis.py` reads
`weather_avg.plot(kind='bar', stacked=True, color=)` — the `color` keyword
argument has no value, which is ill-formed Python: the module fails to parse,
so this step can never run to completion. -/
inductive ChartError where
  | incompleteColorArgument
deriving DecidableEq

/-- The `BikeDataPipeline.run_weather_impact_study` method
(`src/thesis_analysis.py`, lines 95-107).  Modelled as failing
unconditionally: the ill-formed `color=` argument on line 102 aborts every
execution before the `savefig` call, whatever the input table holds. -/
def run_weather_impact_study (_df : List ThesisRow) :
    Except ChartError (List String) :=
  Except.error ChartError.incompleteColorArgument

/-- One row of the optional raw trip log (`trips.csv`), restricted to the
`Start Station` column the spatial query reads. -/
structure TripRow where
  start_station : String
deriving DecidableEq

/-- State of the trips file on disk.  `absent` — `os.path.exists` is false
(no entry, or the path is not even statable); `unreadable` — the file exists
(`os.path.exists` is true) but reading it fails, as for a file without read
permission; `table` — exists and parses. -/
inductive TripFile where
  | absent
  | unreadable
  | table (rows : List TripRow)

/-- A file system holding trip logs. -/
def TripFS : Type := String → TripFile

/-- Error escaping from `pd.read_csv` on an existing but unreadable file
(Python `PermissionError`); it propagates out of `run_spatial_analysis`. -/
inductive ReadError where
  | permissionDenied
deriving DecidableEq

/-- Outcome of the spatial module: skipped, or the printed station table. -/
inductive SpatialResult where
  | skipped
  | stations (l : List (String × Nat))
deriving DecidableEq

/-- Count-descending order on `(station, count)` pairs, the
`ORDER BY departures DESC` of the spatial query. -/
def countGE (a b : String × Nat) : Prop := b.2 ≤ a.2

instance : DecidableRel countGE := fun a b =>
  inferInstanceAs (Decidable (b.2 ≤ a.2))

instance : IsTotal (String × Nat) countGE where
  total a b := (Nat.le_total b.2 a.2).imp (fun h => h) (fun h => h)

instance : IsTrans (String × Nat) countGE where
  trans _ _ _ hab hbc := Nat.le_trans hbc hab

/-- The grouped station counts of the spatial query
(`GROUP BY "Start Station"` with `COUNT(*)`): one pair per distinct observed
station. -/
def stationCounts (trips : List TripRow) : List (String × Nat) :=
  ((trips.map TripRow.start_station).dedup).map fun s =>
    (s, (trips.filter (fun t => decide (t.start_station = s))).length)

/-- The `BikeDataPipeline.run_spatial_analysis` method
(`src/thesis_analysis.py`, lines 109-130), named after the spec's contract.
When `trips_path` is `None` or `os.path.exists` is false, the step is
skipped.  When the file exists but is unreadable, `pd.read_csv` raises and
the error propagates — the guard checks existence only.  Otherwise the query
`SELECT "Start Station", COUNT(*) as departures FROM raw_trips GROUP BY
"Start Station" ORDER BY departures DESC LIMIT 5` is run. -/
def topStartStations (fs : TripFS) (trips_path : Option String) :
    Except ReadError SpatialResult :=
  match trips_path with
  | none => Except.ok SpatialResult.skipped
  | some p =>
    match fs p with
    | TripFile.absent => Except.ok SpatialResult.skipped
    | TripFile.unreadable => Except.error ReadError.permissionDenied
    | TripFile.table trips =>
      Except.ok (SpatialResult.stations
        ((List.insertionSort countGE (stationCounts trips)).take 5))

/-! ### Helper lemmas about the loader -/

/-- Inversion of a successful load: the file existed and every row
cleaned. -/
theorem load_and_clean_ok {fs : HourlyFS} {p : String} {out : List CleanRow}
    (h : load_and_clean fs p = Except.ok out) :
    ∃ raws, fs p = some raws ∧ cleanRows raws = some out := by
  unfold load_and_clean at h
  split at h
  · exact absurd h (by simp)
  next raws heq =>
    split at h
    · exact absurd h (by simp)
    next rows hrows =>
      simp only [Except.ok.injEq] at h
      exact ⟨raws, heq, by rw [hrows, h]⟩

/-- A successful clean maps the rows one to one and in order: any projection
that factors through the per-row transformation is preserved. -/
theorem cleanRows_map {β : Type} (f : CleanRow → β) (g : RawRow → β)
    (hfg : ∀ r d, f (toCleanRow r d) = g r) :
    ∀ rs out, cleanRows rs = some out → out.map f = rs.map g := by
  intro rs
  induction rs with
  | nil =>
    intro out h
    simp only [cleanRows, Option.some.injEq] at h
    rw [← h]
    rfl
  | cons r rs ih =>
    intro out h
    unfold cleanRows at h
    cases hp : parseDate r.dteday with
    | none => rw [hp] at h; exact absurd h (by simp)
    | some d =>
      rw [hp] at h
      cases hc : cleanRows rs with
      | none => rw [hc] at h; exact absurd h (by simp)
      | some cs =>
        rw [hc] at h
        simp only [Option.some.injEq] at h
        rw [← h]
        simp only [List.map_cons, hfg r d, ih cs hc]

/-- Every row of a successfully cleaned table is the transformation of some
input row whose date parsed. -/
theorem cleanRows_mem :
    ∀ rs out, cleanRows rs = some out → ∀ c ∈ out,
      ∃ r, r ∈ rs ∧ ∃ d, parseDate r.dteday = some d ∧ c = toCleanRow r d := by
  intro rs
  induction rs with
  | nil =>
    intro out h c hc
    simp only [cleanRows, Option.some.injEq] at h
    rw [← h] at hc
    exact absurd hc (List.not_mem_nil c)
  | cons r rs ih =>
    intro out h c hc
    unfold cleanRows at h
    cases hp : parseDate r.dteday with
    | none => rw [hp] at h; exact absurd h (by simp)
    | some d =>
      rw [hp] at h
      cases hcs : cleanRows rs with
      | none => rw [hcs] at h; exact absurd h (by simp)
      | some cs =>
        rw [hcs] at h
        simp only [Option.some.injEq] at h
        rw [← h] at hc
        rcases List.mem_cons.mp hc with hc | hc
        · exact ⟨r, List.mem_cons_self r rs, d, hp, hc⟩
        · obtain ⟨r', hr', d', hp', hc'⟩ := ih cs hcs c hc
          exact ⟨r', List.mem_cons_of_mem r hr', d', hp', hc'⟩

/-- A column label outside a rename dictionary's key set is left
unchanged. -/
theorem renameColumn_not_mem {m : List (String × String)} {c : String}
    (h : c ∉ m.map Prod.fst) : renameColumn m c = c := by
  unfold renameColumn
  cases hf : m.find? (fun p => p.1 == c) with
  | none => rfl
  | some q =>
    exfalso
    have hq : (q.1 == c) = true := (List.find?_eq_some.mp hf).1
    have hmem : q ∈ m := List.mem_of_find?_eq_some hf
    exact h (List.mem_map.mpr ⟨q, hmem, by simpa using hq⟩)

/-- Characterization of the `day_type` labelling lambda. -/
theorem dayTypeOf_spec (w : Option ℚ) :
    (dayTypeOf w = "Working Day" ↔ w = some 1) ∧
      (w ≠ some 1 → dayTypeOf w = "Weekend/Holiday") := by
  cases w with
  | none =>
    refine ⟨⟨fun h => absurd h (by decide), fun h => Option.noConfusion h⟩, fun _ => rfl⟩
  | some x =>
    by_cases hx : x = 1
    · subst hx
      refine ⟨⟨fun _ => rfl, fun _ => rfl⟩, fun h => absurd rfl h⟩
    · have hne : dayTypeOf (some x) = "Weekend/Holiday" := if_neg hx
      refine ⟨⟨fun h => ?_, fun h => ?_⟩, fun _ => hne⟩
      · rw [hne] at h
        exact absurd h (by decide)
      · injection h with h
        exact absurd h hx

/-! ### Demonstration tables used by witnesses and concrete conjuncts -/

/-- A fully populated raw row (a working day at hour 8). -/
def demoRaw1 : RawRow :=
  { dteday := "2011-01-01", yr := some 0, mnth := some 1, hr := some 8,
    weathersit := some 1, cnt := some 10, hum := some 1, atemp := some 1,
    workingday := some 1, temp := some 1, windspeed := some 1,
    casual := some 5, registered := some 10 }

/-- A raw row with several missing cells (hour, weather, count, humidity,
temperature), on a non-working day. -/
def demoRaw2 : RawRow :=
  { dteday := "2011-01-02", yr := some 0, mnth := some 1, hr := none,
    weathersit := none, cnt := none, hum := none, atemp := some 1,
    workingday := some 0, temp := none, windspeed := some 1,
    casual := some 15, registered := some 20 }

def demoRaws : List RawRow := [demoRaw1, demoRaw2]

/-- A file system holding the demonstration table at the standard path. -/
def demoFS : HourlyFS := fun q => if q = "data/hour.csv" then some demoRaws else none

def demoClean1 : CleanRow := toCleanRow demoRaw1 (2011, 1, 1)

def demoClean2 : CleanRow := toCleanRow demoRaw2 (2011, 1, 2)

def demoCleanRows : List CleanRow := [demoClean1, demoClean2]

/-! ### C1 — behavior on a missing hourly file -/

/-- C1 counterexample: on a file system with no files at all, the duplicated
pipeline's loader `process_data` returns normally — `Except.ok none`, with
the missing file only reported on stdout — instead of raising a NotFound
error as the claim states for both loader variants. -/
theorem process_data_no_raise_cex :
    process_data (fun _ => none) "hour.csv" = Except.ok none ∧
      (Except.ok (none : Option (List ThesisRow)) ≠
        (Except.error LoadError.fileNotFound :
          Except LoadError (Option (List ThesisRow)))) :=
  ⟨rfl, fun h => Except.noConfusion h⟩

/-- C1 (amended): for every path that does not resolve to an existing file,
`load_and_clean` raises the NotFound error and the `main.py` run writes no
output image; the duplicated `process_data` does not raise — it logs the
missing file and returns `None` — and likewise writes nothing. -/
theorem missing_file_behavior (fs : HourlyFS) (p : String) (h : fs p = none) :
    load_and_clean fs p = Except.error LoadError.fileNotFound ∧
      writesOf (mainRun fs p) = [] ∧
      process_data fs p = Except.ok none := by
  have hl : load_and_clean fs p = Except.error LoadError.fileNotFound := by
    unfold load_and_clean
    rw [h]
  refine ⟨hl, ?_, ?_⟩
  · unfold mainRun
    rw [hl]
    rfl
  · unfold process_data
    rw [h]

/-- Witness for C1's theorem at the empty file system. -/
theorem missing_file_behavior_witness :
    load_and_clean (fun _ => none) "data/hour.csv" =
        Except.error LoadError.fileNotFound ∧
      writesOf (mainRun (fun _ => none) "data/hour.csv") = [] ∧
      process_data (fun _ => none) "data/hour.csv" = Except.ok none :=
  missing_file_behavior (fun _ => none) "data/hour.csv" rfl

/-! ### C2 — the column rename maps of the two pipeline variants -/

/-- C2 counterexample: the duplicated pipeline's rename dictionary leaves
`workingday` unrenamed, so the nine-entry map of the claim is not applied in
every pipeline variant. -/
theorem thesis_rename_divergence_cex :
    renameColumn column_map "workingday" = "workingday" ∧
      renameColumn rename_map "workingday" = "is_working_day" ∧
      ("workingday" : String) ≠ "is_working_day" :=
  ⟨rfl, rfl, by decide⟩

/-- C2 (amended): the `data_loader` variant applies exactly the nine-entry
rename map of the claim and renames nothing else; the `thesis_analysis`
variant applies only the eight entries that agree with it, omits
`workingday → is_working_day` (the `workingday` label passes through
unchanged), and renames nothing else. -/
theorem rename_maps_behavior :
    renameColumn rename_map "dteday" = "date" ∧
      renameColumn rename_map "yr" = "year" ∧
      renameColumn rename_map "mnth" = "month" ∧
      renameColumn rename_map "hr" = "hour" ∧
      renameColumn rename_map "weathersit" = "weather_code" ∧
      renameColumn rename_map "cnt" = "total_rentals" ∧
      renameColumn rename_map "hum" = "humidity_norm" ∧
      renameColumn rename_map "atemp" = "feel_temp_norm" ∧
      renameColumn rename_map "workingday" = "is_working_day" ∧
      (∀ c, c ∉ rename_map.map Prod.fst → renameColumn rename_map c = c) ∧
      (∀ c, c ∈ column_map.map Prod.fst →
        renameColumn column_map c = renameColumn rename_map c) ∧
      renameColumn column_map "workingday" = "workingday" ∧
      (∀ c, c ∉ column_map.map Prod.fst → renameColumn column_map c = c) := by
  refine ⟨rfl, rfl, rfl, rfl, rfl, rfl, rfl, rfl, rfl, ?_, ?_, rfl, ?_⟩
  · intro c hc
    exact renameColumn_not_mem hc
  · intro c hc
    simp only [column_map, List.map_cons, List.map_nil, List.mem_cons,
      List.not_mem_nil, or_false] at hc
    rcases hc with rfl | rfl | rfl | rfl | rfl | rfl | rfl | rfl <;> rfl
  · intro c hc
    exact renameColumn_not_mem hc

/-- Witness for C2's theorem: an unmapped label (`instant`) passes through
both dictionaries, and a mapped label agrees across them. -/
theorem rename_maps_behavior_witness :
    renameColumn rename_map "instant" = "instant" ∧
      renameColumn column_map "instant" = "instant" ∧
      renameColumn column_map "cnt" = renameColumn rename_map "cnt" :=
  ⟨rename_maps_behavior.2.2.2.2.2.2.2.2.2.1 "instant" (by decide),
    rename_maps_behavior.2.2.2.2.2.2.2.2.2.2.2.2 "instant" (by decide),
    rename_maps_behavior.2.2.2.2.2.2.2.2.2.2.1 "cnt" (by decide)⟩

/-! ### C5 — the loader drops, adds and reorders no rows -/

/-- C5: a successful load has exactly as many rows as the input table and
preserves the input order — witnessed per column: the retained source cells
of the output, read top to bottom, are the input's cells in the same order,
including rows with missing values. -/
theorem load_preserves_rows (fs : HourlyFS) (p : String) (raws : List RawRow)
    (out : List CleanRow) (hfs : fs p = some raws)
    (hok : load_and_clean fs p = Except.ok out) :
    out.length = raws.length ∧
      out.map CleanRow.total_rentals = raws.map RawRow.cnt ∧
      out.map CleanRow.hour = raws.map RawRow.hr ∧
      out.map CleanRow.casual = raws.map RawRow.casual ∧
      out.map CleanRow.registered = raws.map RawRow.registered := by
  obtain ⟨raws', hfs', hc⟩ := load_and_clean_ok hok
  rw [hfs] at hfs'
  injection hfs' with hh
  subst hh
  have hcnt := cleanRows_map CleanRow.total_rentals RawRow.cnt (fun r d => rfl) raws out hc
  refine ⟨?_, hcnt,
    cleanRows_map CleanRow.hour RawRow.hr (fun r d => rfl) raws out hc,
    cleanRows_map CleanRow.casual RawRow.casual (fun r d => rfl) raws out hc,
    cleanRows_map CleanRow.registered RawRow.registered (fun r d => rfl) raws out hc⟩
  have hlen := congrArg List.length hcnt
  simpa using hlen

/-- Witness for C5 at the demonstration table, whose second row carries
missing cells. -/
theorem load_preserves_rows_witness :
    demoCleanRows.length = demoRaws.length ∧
      demoCleanRows.map CleanRow.total_rentals = demoRaws.map RawRow.cnt ∧
      demoCleanRows.map CleanRow.hour = demoRaws.map RawRow.hr ∧
      demoCleanRows.map CleanRow.casual = demoRaws.map RawRow.casual ∧
      demoCleanRows.map CleanRow.registered = demoRaws.map RawRow.registered :=
  load_preserves_rows demoFS "data/hour.csv" demoRaws demoCleanRows rfl rfl

/-! ### C6 — the day_type label -/

/-- C6: in every row of the loader's output, `day_type` is `Working Day`
exactly when the working-day flag equals 1, and `Weekend/Holiday` for any
other value of the flag (including a missing cell); the duplicated pipeline's
transformation labels identically from its unrenamed `workingday` column. -/
theorem day_type_correct (fs : HourlyFS) (p : String) (out : List CleanRow)
    (hok : load_and_clean fs p = Except.ok out) :
    (∀ c ∈ out, (c.day_type = "Working Day" ↔ c.is_working_day = some 1) ∧
        (c.is_working_day ≠ some 1 → c.day_type = "Weekend/Holiday")) ∧
      (∀ r : RawRow,
        ((thesisClean r).day_type = "Working Day" ↔ r.workingday = some 1) ∧
        (r.workingday ≠ some 1 → (thesisClean r).day_type = "Weekend/Holiday")) := by
  obtain ⟨raws, _, hc⟩ := load_and_clean_ok hok
  refine ⟨?_, fun r => dayTypeOf_spec r.workingday⟩
  intro c hcm
  obtain ⟨r, _, d, _, rfl⟩ := cleanRows_mem raws out hc c hcm
  exact dayTypeOf_spec r.workingday

/-- Witness for C6 at the demonstration table. -/
theorem day_type_correct_witness :
    (demoClean1.day_type = "Working Day" ↔ demoClean1.is_working_day = some 1) ∧
      (demoClean1.is_working_day ≠ some 1 → demoClean1.day_type = "Weekend/Holiday") :=
  (day_type_correct demoFS "data/hour.csv" demoCleanRows rfl).1 demoClean1
    (List.mem_cons_self _ _)

/-! ### C7 — denormalization constants and retained source columns -/

/-- C7: every output row's `temp_c`, `humidity_real` and `wind_speed_real`
are the row's retained normalized cells times 41, 100 and 67 (a missing cell
stays missing), the source normalized columns pass through unchanged, and the
duplicated pipeline derives identically. -/
theorem denormalization_correct (fs : HourlyFS) (p : String) (raws : List RawRow)
    (out : List CleanRow) (hfs : fs p = some raws)
    (hok : load_and_clean fs p = Except.ok out) :
    (∀ c ∈ out, c.temp_c = c.temp.map (fun x => x * 41) ∧
        c.humidity_real = c.humidity_norm.map (fun x => x * 100) ∧
        c.wind_speed_real = c.windspeed.map (fun x => x * 67)) ∧
      out.map CleanRow.temp = raws.map RawRow.temp ∧
      out.map CleanRow.humidity_norm = raws.map RawRow.hum ∧
      out.map CleanRow.windspeed = raws.map RawRow.windspeed ∧
      (∀ r : RawRow, (thesisClean r).temp_c = r.temp.map (fun x => x * 41) ∧
        (thesisClean r).humidity_real = r.hum.map (fun x => x * 100) ∧
        (thesisClean r).wind_speed_real = r.windspeed.map (fun x => x * 67)) := by
  obtain ⟨raws', hfs', hc⟩ := load_and_clean_ok hok
  rw [hfs] at hfs'
  injection hfs' with hh
  subst hh
  refine ⟨?_, cleanRows_map CleanRow.temp RawRow.temp (fun r d => rfl) raws out hc,
    cleanRows_map CleanRow.humidity_norm RawRow.hum (fun r d => rfl) raws out hc,
    cleanRows_map CleanRow.windspeed RawRow.windspeed (fun r d => rfl) raws out hc,
    fun r => ⟨rfl, rfl, rfl⟩⟩
  intro c hcm
  obtain ⟨r, _, d, _, rfl⟩ := cleanRows_mem raws out hc c hcm
  exact ⟨rfl, rfl, rfl⟩

/-- Witness for C7 at the demonstration table. -/
theorem denormalization_correct_witness :
    (demoClean1.temp_c = demoClean1.temp.map (fun x => x * 41) ∧
        demoClean1.humidity_real = demoClean1.humidity_norm.map (fun x => x * 100) ∧
        demoClean1.wind_speed_real = demoClean1.windspeed.map (fun x => x * 67)) ∧
      demoCleanRows.map CleanRow.temp = demoRaws.map RawRow.temp :=
  ⟨(denormalization_correct demoFS "data/hour.csv" demoRaws demoCleanRows rfl rfl).1
      demoClean1 (List.mem_cons_self _ _),
    (denormalization_correct demoFS "data/hour.csv" demoRaws demoCleanRows rfl rfl).2.1⟩

/-! ### C3 — the temporal aggregation -/

instance : IsTotal ℚ (fun a b : ℚ => a ≤ b) := ⟨le_total⟩

instance : IsTrans ℚ (fun a b : ℚ => a ≤ b) := ⟨fun _ _ _ => le_trans⟩

/-- The key column of the temporal output is exactly the sorted
deduplication of the observed keys. -/
theorem temporalAggregate_keys (rows : List CleanRow) :
    (temporalAggregate rows).map (fun a => (a.hour, a.day_type)) =
      List.insertionSort tkeyLe ((rows.map tkey).dedup) := by
  unfold temporalAggregate
  rw [List.map_map]
  have h : ((fun a : TemporalRow => (a.hour, a.day_type)) ∘
      fun k : Option ℚ × String =>
        ({ hour := k.1, day_type := k.2,
           average_volume := avgOpt ((tgroup rows k).map CleanRow.total_rentals) } :
          TemporalRow)) = id :=
    funext fun k => rfl
  rw [h, List.map_id]

/-- A synthetic group of three rows at (hour 8, Working Day) with rentals
10, 20 and 30. -/
def ternRaw (c : Option ℚ) : RawRow := { demoRaw1 with cnt := c }

def tern : List CleanRow :=
  [toCleanRow (ternRaw (some 10)) (2011, 1, 1),
   toCleanRow (ternRaw (some 20)) (2011, 1, 1),
   toCleanRow (ternRaw (some 30)) (2011, 1, 1)]

/-- C3: the temporal aggregation emits exactly one row per distinct observed
(hour, day_type) key (no duplicate keys, and a key appears in the output
exactly when it is observed in the input), sorted by day_type ascending then
hour ascending; each row's value is the arithmetic mean of the group's
total_rentals with missing values contributing to neither sum nor count; and
the synthetic group with rentals 10, 20, 30 averages to 20. -/
theorem temporalAggregate_correct (rows : List CleanRow) :
    ((temporalAggregate rows).map (fun a => (a.hour, a.day_type))).Nodup ∧
      (∀ k : Option ℚ × String,
        k ∈ (temporalAggregate rows).map (fun a => (a.hour, a.day_type)) ↔
          k ∈ rows.map tkey) ∧
      List.Sorted tkeyLe ((temporalAggregate rows).map (fun a => (a.hour, a.day_type))) ∧
      (∀ a ∈ temporalAggregate rows,
        a.average_volume =
          (let ws := ((rows.filter (fun r =>
              decide (r.hour = a.hour ∧ r.day_type = a.day_type))).map
                CleanRow.total_rentals).filterMap id
           if ws = [] then none else some (ws.sum / (ws.length : ℚ)))) ∧
      temporalAggregate tern =
        [{ hour := some 8, day_type := "Working Day", average_volume := some 20 }] := by
  have hkeys := temporalAggregate_keys rows
  refine ⟨?_, ?_, ?_, ?_, ?_⟩
  · rw [hkeys]
    exact ((List.perm_insertionSort tkeyLe _).nodup_iff).mpr (List.nodup_dedup _)
  · intro k
    rw [hkeys, (List.perm_insertionSort tkeyLe _).mem_iff, List.mem_dedup]
  · rw [hkeys]
    exact List.sorted_insertionSort tkeyLe _
  · intro a ha
    obtain ⟨k, hk, rfl⟩ := List.mem_map.mp ha
    show avgOpt ((tgroup rows k).map CleanRow.total_rentals) =
        (let ws := ((rows.filter (fun r =>
            decide (r.hour = k.1 ∧ r.day_type = k.2))).map
              CleanRow.total_rentals).filterMap id
         if ws = [] then none else some (ws.sum / (ws.length : ℚ)))
    have hg : rows.filter (fun r => decide (r.hour = k.1 ∧ r.day_type = k.2)) =
        tgroup rows k := by
      refine List.filter_congr (fun r _ => decide_eq_decide.mpr ?_)
      constructor
      · rintro ⟨h1, h2⟩
        show (r.hour, r.day_type) = k
        rw [h1, h2]
      · intro h
        exact ⟨congrArg Prod.fst h, congrArg Prod.snd h⟩
    rw [hg]
    rfl
  · have h1 : temporalAggregate tern =
        [{ hour := some 8, day_type := "Working Day",
           average_volume := some (([(10 : ℚ), 20, 30].sum) / 3) }] := rfl
    rw [h1]
    norm_num

/-- Witness for C3: the observed demo key is reported in the output. -/
theorem temporalAggregate_correct_witness :
    (some (8 : ℚ), "Working Day") ∈
      (temporalAggregate tern).map (fun a => (a.hour, a.day_type)) :=
  ((temporalAggregate_correct tern).2.1 (some 8, "Working Day")).mpr (by decide)

/-! ### C4 — the weather aggregation -/

/-- The key column of the weather output is exactly the sorted
deduplication of the observed non-missing codes. -/
theorem weatherAggregate_keys (rows : List CleanRow) :
    (weatherAggregate rows).map WeatherRow.weather_code =
      List.insertionSort (fun a b : ℚ => a ≤ b)
        ((rows.filterMap CleanRow.weather_code).dedup) := by
  unfold weatherAggregate
  rw [List.map_map]
  have h : (WeatherRow.weather_code ∘ fun w : ℚ =>
      ({ weather_code := w,
         average_casual := avgOpt ((wgroup rows w).map CleanRow.casual),
         average_registered := avgOpt ((wgroup rows w).map CleanRow.registered) } :
        WeatherRow)) = id :=
    funext fun w => rfl
  rw [h, List.map_id]

/-- Two rows with weather code 1, casual counts 5 and 15, registered counts
10 and 20. -/
def wdemo : List CleanRow :=
  [toCleanRow demoRaw1 (2011, 1, 1),
   toCleanRow { demoRaw1 with casual := some 15, registered := some 20 } (2011, 1, 1)]

/-- C4: the weather aggregation emits exactly one row per distinct observed
weather code (no duplicate codes; a code appears exactly when some row
carries it), ordered by code ascending; each row carries the mean of casual
and the mean of registered computed independently over the group; and the
example group with casual [5, 15] and registered [10, 20] under code 1
averages to 10 and 15. -/
theorem weatherAggregate_correct (rows : List CleanRow) :
    ((weatherAggregate rows).map WeatherRow.weather_code).Nodup ∧
      (∀ w : ℚ, w ∈ (weatherAggregate rows).map WeatherRow.weather_code ↔
        some w ∈ rows.map CleanRow.weather_code) ∧
      List.Sorted (fun a b : ℚ => a ≤ b)
        ((weatherAggregate rows).map WeatherRow.weather_code) ∧
      (∀ a ∈ weatherAggregate rows,
        a.average_casual =
          (let ws := ((rows.filter (fun r =>
              decide (r.weather_code = some a.weather_code))).map
                CleanRow.casual).filterMap id
           if ws = [] then none else some (ws.sum / (ws.length : ℚ))) ∧
        a.average_registered =
          (let ws := ((rows.filter (fun r =>
              decide (r.weather_code = some a.weather_code))).map
                CleanRow.registered).filterMap id
           if ws = [] then none else some (ws.sum / (ws.length : ℚ)))) ∧
      weatherAggregate wdemo =
        [{ weather_code := 1, average_casual := some 10,
           average_registered := some 15 }] := by
  have hkeys := weatherAggregate_keys rows
  refine ⟨?_, ?_, ?_, ?_, ?_⟩
  · rw [hkeys]
    exact ((List.perm_insertionSort _ _).nodup_iff).mpr (List.nodup_dedup _)
  · intro w
    rw [hkeys, (List.perm_insertionSort _ _).mem_iff, List.mem_dedup,
      List.mem_filterMap, List.mem_map]
  · rw [hkeys]
    exact List.sorted_insertionSort _ _
  · intro a ha
    obtain ⟨w, hw, rfl⟩ := List.mem_map.mp ha
    exact ⟨rfl, rfl⟩
  · have h1 : weatherAggregate wdemo =
        [{ weather_code := 1, average_casual := some (([(5 : ℚ), 15].sum) / 2),
           average_registered := some (([(10 : ℚ), 20].sum) / 2) }] := rfl
    rw [h1]
    norm_num

/-- Witness for C4: the observed demo code is reported in the output. -/
theorem weatherAggregate_correct_witness :
    (1 : ℚ) ∈ (weatherAggregate wdemo).map WeatherRow.weather_code :=
  ((weatherAggregate_correct wdemo).2.1 1).mpr (by decide)

/-! ### C8 — the optional spatial module -/

/-- C8 counterexample: a trips file that exists (so `os.path.exists` is
true) but cannot be read makes the spatial step raise a read error instead
of the claimed skip — the guard checks existence only, and the `pd.read_csv`
failure propagates. -/
theorem unreadable_trips_cex :
    topStartStations (fun _ => TripFile.unreadable) (some "trips.csv") =
        Except.error ReadError.permissionDenied ∧
      (Except.error ReadError.permissionDenied ≠
        (Except.ok SpatialResult.skipped : Except ReadError SpatialResult)) :=
  ⟨rfl, fun h => Except.noConfusion h⟩

/-- C8 (amended): the spatial step returns an empty result with a skipped
status exactly when the trips path is `None` or fails the existence check; a
file that exists but cannot be read raises a read error that propagates.
When the table is readable, the result holds at most five entries — exactly
`min 5 d` where `d` is the number of distinct stations — sorted by count
descending, each entry pairing an observed station with its occurrence
count, and no station repeated. -/
theorem topStartStations_spec (fs : TripFS) (p : String) (trips : List TripRow) :
    topStartStations fs none = Except.ok SpatialResult.skipped ∧
      (fs p = TripFile.absent →
        topStartStations fs (some p) = Except.ok SpatialResult.skipped) ∧
      (fs p = TripFile.unreadable →
        topStartStations fs (some p) = Except.error ReadError.permissionDenied) ∧
      (fs p = TripFile.table trips →
        ∀ l, topStartStations fs (some p) = Except.ok (SpatialResult.stations l) →
          l.length = min 5 ((trips.map TripRow.start_station).dedup).length ∧
          List.Sorted countGE l ∧
          (∀ sc ∈ l,
            sc.2 = (trips.filter (fun t => decide (t.start_station = sc.1))).length ∧
            sc.1 ∈ trips.map TripRow.start_station) ∧
          (l.map Prod.fst).Nodup) := by
  refine ⟨rfl, ?_, ?_, ?_⟩
  · intro h
    simp only [topStartStations, h]
  · intro h
    simp only [topStartStations, h]
  · intro h l hl
    have hres : topStartStations fs (some p) =
        Except.ok (SpatialResult.stations
          ((List.insertionSort countGE (stationCounts trips)).take 5)) := by
      simp only [topStartStations, h]
    rw [hres] at hl
    simp only [Except.ok.injEq, SpatialResult.stations.injEq] at hl
    subst hl
    have hperm := List.perm_insertionSort countGE (stationCounts trips)
    refine ⟨?_, ?_, ?_, ?_⟩
    · rw [List.length_take, hperm.length_eq]
      unfold stationCounts
      rw [List.length_map]
    · exact List.Pairwise.sublist (List.take_sublist 5 _)
        (List.sorted_insertionSort countGE _)
    · intro sc hsc
      have h1 : sc ∈ List.insertionSort countGE (stationCounts trips) :=
        List.mem_of_mem_take hsc
      have h2 : sc ∈ stationCounts trips := hperm.mem_iff.mp h1
      obtain ⟨s, hs, rfl⟩ := List.mem_map.mp h2
      exact ⟨rfl, List.mem_dedup.mp hs⟩
    · have hmapfst : (stationCounts trips).map Prod.fst =
          (trips.map TripRow.start_station).dedup := by
        unfold stationCounts
        rw [List.map_map]
        have hcomp : (Prod.fst ∘ fun s =>
            (s, (trips.filter (fun t => decide (t.start_station = s))).length)) =
              (id : String → String) :=
          funext fun s => rfl
        rw [hcomp, List.map_id]
      rw [List.map_take]
      refine List.Nodup.sublist (List.take_sublist 5 _) ?_
      refine ((hperm.map Prod.fst).nodup_iff).mpr ?_
      rw [hmapfst]
      exact List.nodup_dedup _

/-- Six demonstration trips over three stations. -/
def wtrips : List TripRow :=
  [{ start_station := "A" }, { start_station := "B" }, { start_station := "A" },
   { start_station := "C" }, { start_station := "B" }, { start_station := "A" }]

def wtripsFS : TripFS :=
  fun q => if q = "trips.csv" then TripFile.table wtrips else TripFile.absent

/-- Witness for C8 at the demonstration trips table. -/
theorem topStartStations_spec_witness :
    ([(("A" : String), 3), ("B", 2), ("C", 1)] : List (String × Nat)).length =
        min 5 ((wtrips.map TripRow.start_station).dedup).length ∧
      List.Sorted countGE [(("A" : String), 3), ("B", 2), ("C", 1)] ∧
      (([(("A" : String), 3), ("B", 2), ("C", 1)] :
        List (String × Nat)).map Prod.fst).Nodup := by
  have h := (topStartStations_spec wtripsFS "trips.csv" wtrips).2.2.2 rfl
    [("A", 3), ("B", 2), ("C", 1)] rfl
  exact ⟨h.1, h.2.1, h.2.2.2⟩

/-! ### C9 — the ill-formed weather-chart call of the duplicated pipeline -/

/-- C9: the duplicated pipeline's weather-chart step carries the incomplete
`color=` keyword argument of line 102, so for every input table the step
fails rather than completing, and it writes no image. -/
theorem weather_chart_defect (df : List ThesisRow) :
    run_weather_impact_study df = Except.error ChartError.incompleteColorArgument ∧
      writesOf (run_weather_impact_study df) = [] :=
  ⟨rfl, rfl⟩

/-- Witness for C9 at the empty table. -/
theorem weather_chart_defect_witness :
    run_weather_impact_study [] = Except.error ChartError.incompleteColorArgument ∧
      writesOf (run_weather_impact_study []) = [] :=
  weather_chart_defect []

/-! ### C10 — missing grouping keys in the two aggregators -/

/-- Rows whose weather code is missing do not feed the observed key list. -/
theorem filterMap_weather_filter (l : List CleanRow) :
    (l.filter (fun x => decide (x.weather_code ≠ none))).filterMap
        CleanRow.weather_code =
      l.filterMap CleanRow.weather_code := by
  induction l with
  | nil => rfl
  | cons x xs ih =>
    simp only [ne_eq, decide_not] at ih ⊢
    cases hx : x.weather_code with
    | none => simp [List.filter_cons, List.filterMap_cons, hx, ih]
    | some w => simp [List.filter_cons, List.filterMap_cons, hx, ih]

/-- Rows whose weather code is missing do not feed any weather group. -/
theorem wgroup_filter (w : ℚ) (l : List CleanRow) :
    wgroup (l.filter (fun x => decide (x.weather_code ≠ none))) w = wgroup l w := by
  unfold wgroup
  induction l with
  | nil => rfl
  | cons x xs ih =>
    simp only [ne_eq, decide_not] at ih ⊢
    cases hx : x.weather_code with
    | none => simp [List.filter_cons, hx, ih]
    | some u => simp [List.filter_cons, hx, ih]

/-- C10: rows with a missing weather code are silently invisible to the
pandas weather aggregation — removing them changes nothing, they belong to
no group, and every emitted code is an actually observed one — whereas the
SQL temporal aggregation emits a group for a missing grouping key: a row
with a missing hour contributes the key (NULL, day_type) to the output. -/
theorem nullKey_divergence (rows : List CleanRow) (r : CleanRow)
    (hmem : r ∈ rows) (hw : r.weather_code = none) :
    weatherAggregate rows =
        weatherAggregate (rows.filter (fun x => decide (x.weather_code ≠ none))) ∧
      (∀ w : ℚ, r ∉ wgroup rows w) ∧
      (∀ a ∈ weatherAggregate rows,
        a.weather_code ∈ rows.filterMap CleanRow.weather_code) ∧
      (r.hour = none →
        (none, r.day_type) ∈
          (temporalAggregate rows).map (fun a => (a.hour, a.day_type))) := by
  refine ⟨?_, ?_, ?_, ?_⟩
  · unfold weatherAggregate
    rw [filterMap_weather_filter]
    refine List.map_congr_left (fun w _ => ?_)
    rw [wgroup_filter]
  · intro w hrw
    rw [wgroup, List.mem_filter] at hrw
    have hrw2 := of_decide_eq_true hrw.2
    rw [hw] at hrw2
    exact Option.noConfusion hrw2
  · intro a ha
    obtain ⟨w, hkw, rfl⟩ := List.mem_map.mp ha
    show w ∈ rows.filterMap CleanRow.weather_code
    exact List.mem_dedup.mp ((List.perm_insertionSort _ _).mem_iff.mp hkw)
  · intro hh
    rw [temporalAggregate_keys, (List.perm_insertionSort tkeyLe _).mem_iff,
      List.mem_dedup]
    refine List.mem_map.mpr ⟨r, hmem, ?_⟩
    show (r.hour, r.day_type) = (none, r.day_type)
    rw [hh]

/-- A row with both a missing weather code and a missing hour, next to a
fully populated row. -/
def nullRaw : RawRow :=
  { demoRaw1 with hr := none, weathersit := none, workingday := some 0 }

def nullDemoRow : CleanRow := toCleanRow nullRaw (2011, 1, 1)

def nullDemo : List CleanRow := [toCleanRow demoRaw1 (2011, 1, 1), nullDemoRow]

/-- Witness for C10 at the demonstration table. -/
theorem nullKey_divergence_witness :
    nullDemoRow ∉ wgroup nullDemo 1 ∧
      (none, "Weekend/Holiday") ∈
        (temporalAggregate nullDemo).map (fun a => (a.hour, a.day_type)) := by
  have h := nullKey_divergence nullDemo nullDemoRow
    (List.mem_cons_of_mem _ (List.mem_cons_self _ _)) rfl
  exact ⟨h.2.1 1, h.2.2.2 rfl⟩

end BikeShare
